import Mathlib

/-!
Verification development for the helm-debugger search-and-reduction engine.

The embedding models the Python sources:
  - `parser.py`   : `TemplateParser._parse_content` / `_detect_block_type`
  - `line_searcher.py` : `TemplateStructureAnalyzer`, `LineBasedExecutor._create_partial_by_line`,
    `LineBinarySearcher.search`, `LineStepByStepSearcher.search`
  - `executor.py` : `IncrementalExecutor._create_partial_template`
  - `searcher.py` : `BinarySearcher.search`, `StepByStepSearcher.search`

Documents are modelled as lists of characters.  Line splitting follows
Python `str.splitlines(keepends=True)` restricted to the `\n` separator
(which also covers `\r\n` files, since the parser and the mutators strip
`\r` wherever Python would); the exotic separators (`\v`, `\f`, `\u0085`,
...) are not modelled.  The external helm renderer (an opaque subprocess
in `executor.py`) is abstracted as a boolean oracle: for the searchers a
probe at cutoff `m` is `oracle m = true` iff `helm template` exits 0 on
the document reduced at `m`.  Fields of the Python result objects that
only feed the reporting layer (file paths, raw stderr text, context
snippets) are omitted; an extra `probes` field counts oracle
invocations, which in the source is the number of external `helm`
process runs.
-/

/-- A single source line (with its terminator, when split keepends-style). -/
abbrev Line := List Char

/-- Python `str.strip()` whitespace test, restricted to the ASCII whitespace
characters (space, tab, newline, carriage return, vertical tab, form feed). -/
def isPySpace (c : Char) : Bool :=
  c == ' ' || c == '\t' || c == '\n' || c == '\r' || c == '\x0b' || c == '\x0c'

/-- Python `str.strip()`: remove whitespace from both ends. -/
def pyStrip (l : List Char) : List Char :=
  ((l.dropWhile isPySpace).reverse.dropWhile isPySpace).reverse

/-- Python `line.rstrip('\n\r')`: remove every trailing `\n` or `\r`. -/
def rstripNewlines (l : List Char) : List Char :=
  (l.reverse.dropWhile (fun c => c == '\n' || c == '\r')).reverse

/-- Strip the line terminator of a keepends line, as Python
`splitlines()` (without keepends) would: one trailing `\n`, then one
trailing `\r` (covering a `\r\n` terminator). -/
def dropBreak (l : List Char) : List Char :=
  let l1 := if l.getLast? = some '\n' then l.dropLast else l
  if l1.getLast? = some '\r' then l1.dropLast else l1

/-- Helper for `splitlines_keepends`: `acc` holds the current line (reversed). -/
def splitAux (acc : List Char) : List Char → List (List Char)
  | [] => if acc.isEmpty then [] else [acc.reverse]
  | c :: cs =>
    if c == '\n' then (acc.reverse ++ ['\n']) :: splitAux [] cs
    else splitAux (c :: acc) cs

/-- Python `content.splitlines(keepends=True)` with `\n` as the separator. -/
def splitlines_keepends (content : List Char) : List (List Char) :=
  splitAux [] content

/-- Tokens of the small regex language used by `parser.py` and
`line_searcher.py`: literal characters, `-?`, `\s` (one whitespace),
`\s*`, and `.*?` (with `re.DOTALL`, so it matches any characters). -/
inductive PatTok where
  | lit : Char → PatTok
  | opt : Char → PatTok
  | ws1 : PatTok
  | wsStar : PatTok
  | anyStar : PatTok
deriving DecidableEq

/-- All suffixes of `cs` reachable by skipping leading whitespace
(candidate continuation points for `\s*`). -/
def wsSkips : List Char → List (List Char)
  | [] => [[]]
  | c :: cs => (c :: cs) :: (if isPySpace c then wsSkips cs else [])

/-- All suffixes of `cs` (candidate continuation points for `.*?`). -/
def allSuffixes : List Char → List (List Char)
  | [] => [[]]
  | c :: cs => (c :: cs) :: allSuffixes cs

/-- Predicate `patMatch ps cs` holds iff the token sequence `ps` matches a prefix
of `cs` (the semantics of anchoring a regex at the start of `cs`). -/
def patMatch : List PatTok → List Char → Bool
  | [], _ => true
  | .lit _ :: _, [] => false
  | .lit c :: ps, d :: cs => c == d && patMatch ps cs
  | .opt _ :: ps, [] => patMatch ps []
  | .opt c :: ps, d :: cs => (c == d && patMatch ps cs) || patMatch ps (d :: cs)
  | .ws1 :: _, [] => false
  | .ws1 :: ps, d :: cs => isPySpace d && patMatch ps cs
  | .wsStar :: ps, cs => (wsSkips cs).any fun s => patMatch ps s
  | .anyStar :: ps, cs => (allSuffixes cs).any fun s => patMatch ps s

/-- Semantics of `re.search`: the pattern matches at some position of the string. -/
def patSearch (ps : List PatTok) (cs : List Char) : Bool :=
  (allSuffixes cs).any fun s => patMatch ps s

/-- Literal tokens for a keyword. -/
def litToks (w : List Char) : List PatTok := w.map .lit

/-- The common regex prefix of the control patterns. -/
def braceOpen : List PatTok := [.lit '\x7b', .lit '\x7b', .opt '-', .wsStar]

/-- The common regex suffix of the `else`/`end` patterns. -/
def braceClose : List PatTok := [.wsStar, .opt '-', .lit '\x7d', .lit '\x7d']

/-! Regexes of `TemplateParser.PATTERNS` (`parser.py`). -/

def pat_if_start : List PatTok := braceOpen ++ litToks ['i', 'f'] ++ [.ws1, .wsStar]

def pat_else_if : List PatTok :=
  braceOpen ++ litToks ['e', 'l', 's', 'e'] ++ [.ws1, .wsStar] ++ litToks ['i', 'f'] ++ [.ws1, .wsStar]

def pat_else : List PatTok := braceOpen ++ litToks ['e', 'l', 's', 'e'] ++ braceClose

def pat_end : List PatTok := braceOpen ++ litToks ['e', 'n', 'd'] ++ braceClose

def pat_range_start : List PatTok :=
  braceOpen ++ litToks ['r', 'a', 'n', 'g', 'e'] ++ [.ws1, .wsStar]

def pat_with_start : List PatTok :=
  braceOpen ++ litToks ['w', 'i', 't', 'h'] ++ [.ws1, .wsStar]

def pat_define_start : List PatTok :=
  braceOpen ++ litToks ['d', 'e', 'f', 'i', 'n', 'e'] ++ [.ws1, .wsStar]

def pat_template : List PatTok :=
  braceOpen ++ litToks ['t', 'e', 'm', 'p', 'l', 'a', 't', 'e'] ++ [.ws1, .wsStar]

def pat_include : List PatTok :=
  braceOpen ++ litToks ['i', 'n', 'c', 'l', 'u', 'd', 'e'] ++ [.ws1, .wsStar]

def pat_comment : List PatTok :=
  litToks ['\x7b', '\x7b', '/', '*'] ++ [.anyStar] ++ litToks ['*', '/', '\x7d', '\x7d']

def pat_expression : List PatTok :=
  [.lit '\x7b', .lit '\x7b', .opt '-', .anyStar, .opt '-', .lit '\x7d', .lit '\x7d']

/-! Regexes of `TemplateStructureAnalyzer.CONTROL_PATTERNS`
(`line_searcher.py`); these end in a single `\s` where the parser end
in `\s+`, and the list has `block` but no `include`. -/

def ctl_if : List PatTok := braceOpen ++ litToks ['i', 'f'] ++ [.ws1]

def ctl_else : List PatTok := braceOpen ++ litToks ['e', 'l', 's', 'e'] ++ braceClose

def ctl_else_if : List PatTok :=
  braceOpen ++ litToks ['e', 'l', 's', 'e'] ++ [.ws1, .wsStar] ++ litToks ['i', 'f'] ++ [.ws1]

def ctl_end : List PatTok := braceOpen ++ litToks ['e', 'n', 'd'] ++ braceClose

def ctl_range : List PatTok := braceOpen ++ litToks ['r', 'a', 'n', 'g', 'e'] ++ [.ws1]

def ctl_with : List PatTok := braceOpen ++ litToks ['w', 'i', 't', 'h'] ++ [.ws1]

def ctl_define : List PatTok := braceOpen ++ litToks ['d', 'e', 'f', 'i', 'n', 'e'] ++ [.ws1]

def ctl_template : List PatTok :=
  braceOpen ++ litToks ['t', 'e', 'm', 'p', 'l', 'a', 't', 'e'] ++ [.ws1]

def ctl_block : List PatTok := braceOpen ++ litToks ['b', 'l', 'o', 'c', 'k'] ++ [.ws1]

/-- Table `TemplateStructureAnalyzer.CONTROL_PATTERNS`, in source order. -/
def control_patterns : List (List PatTok) :=
  [ctl_if, ctl_else, ctl_else_if, ctl_end, ctl_range, ctl_with, ctl_define, ctl_template,
    ctl_block]

/-- Model of `TemplateStructureAnalyzer.is_control_line`. -/
def is_control_line (line : Line) : Bool :=
  control_patterns.any fun p => patSearch p line

/-- Model of `parser.BlockType`. -/
inductive BlockType where
  | PLAIN
  | EXPRESSION
  | IF
  | ELSE
  | ELSE_IF
  | END
  | RANGE
  | WITH
  | DEFINE
  | TEMPLATE
  | INCLUDE
  | COMMENT
deriving DecidableEq

/-- Model of `TemplateParser._detect_block_type`: strip the line, then test the
patterns in source order, first match wins, default `PLAIN`. -/
def detect_block_type (line : Line) : BlockType :=
  let s := pyStrip line
  if patSearch pat_comment s then .COMMENT
  else if patSearch pat_else_if s then .ELSE_IF
  else if patSearch pat_else s then .ELSE
  else if patSearch pat_end s then .END
  else if patSearch pat_if_start s then .IF
  else if patSearch pat_range_start s then .RANGE
  else if patSearch pat_with_start s then .WITH
  else if patSearch pat_define_start s then .DEFINE
  else if patSearch pat_template s then .TEMPLATE
  else if patSearch pat_include s then .INCLUDE
  else if patSearch pat_expression s then .EXPRESSION
  else .PLAIN

/-- Model of `parser.TemplateBlock` (the `file_path` field, pure reporting
metadata, is omitted). -/
structure TemplateBlock where
  block_type : BlockType
  content : Line
  start_line : Nat
  end_line : Nat
  nesting_level : Nat
deriving DecidableEq

/-- The loop body of `TemplateParser._parse_content`: scan the keepends
lines, skip blank lines, and record one single-line block per non-blank
line, maintaining the running nesting counter (`max(0, ...)` is `Nat`
truncated subtraction). -/
def parse_lines : List Line → Nat → Nat → List TemplateBlock
  | [], _, _ => []
  | line :: rest, current_line, nesting =>
    if (pyStrip line).isEmpty then
      parse_lines rest (current_line + 1) nesting
    else
      let bt := detect_block_type line
      if bt = .IF ∨ bt = .RANGE ∨ bt = .WITH ∨ bt = .DEFINE then
        ⟨bt, line, current_line, current_line, nesting⟩ ::
          parse_lines rest (current_line + 1) (nesting + 1)
      else if bt = .END then
        ⟨bt, line, current_line, current_line, nesting - 1⟩ ::
          parse_lines rest (current_line + 1) (nesting - 1)
      else if bt = .ELSE ∨ bt = .ELSE_IF then
        ⟨bt, line, current_line, current_line, nesting - 1⟩ ::
          parse_lines rest (current_line + 1) nesting
      else
        ⟨bt, line, current_line, current_line, nesting⟩ ::
          parse_lines rest (current_line + 1) nesting

/-- Model of `TemplateParser._parse_content`. -/
def parse_content (content : List Char) : List TemplateBlock :=
  parse_lines (splitlines_keepends content) 1 0

/-- Model of `ParsedTemplate.total_lines` (`len(content.splitlines())`, which has
the same length as the keepends split). -/
def total_lines (content : List Char) : Nat :=
  (splitlines_keepends content).length

/-- One line of `LineBasedExecutor._create_partial_by_line`: lines up to
the cutoff pass through, control-structure lines (per the analyzer
structure map, computed on the terminator-stripped line) pass through,
other non-blank lines are replaced by a bare newline, blank lines pass
through. -/
def reduce_line (end_line : Nat) (line_num : Nat) (line : Line) : Line :=
  if line_num ≤ end_line then line
  else if is_control_line (dropBreak line) then line
  else if (pyStrip (rstripNewlines line)).isEmpty then line
  else ['\n']

/-- The `for i, line in enumerate(lines)` loop of
`LineBasedExecutor._create_partial_by_line` (`i` is 1-based here). -/
def reduce_lines (end_line : Nat) : Nat → List Line → List Line
  | _, [] => []
  | i, l :: ls => reduce_line end_line i l :: reduce_lines end_line (i + 1) ls

/-- Model of `LineBasedExecutor._create_partial_by_line`: the text written to the
temporary chart copy. -/
def create_partial_by_line (content : List Char) (end_line : Nat) : List Char :=
  (reduce_lines end_line 1 (splitlines_keepends content)).flatten

/-- Membership of a line number in the `included_lines` set of
`IncrementalExecutor._create_partial_template`. -/
def included_line (blocks : List TemplateBlock) (line_num : Nat) : Bool :=
  blocks.any fun b => b.start_line ≤ line_num && line_num ≤ b.end_line

/-- The Go-template comment wrapper `f"{{{{/* {stripped} */}}}}\n"`. -/
def comment_wrap (stripped : List Char) : List Char :=
  ['\x7b', '\x7b', '/', '*', ' '] ++ stripped ++ [' ', '*', '/', '\x7d', '\x7d', '\n']

/-- One line of `IncrementalExecutor._create_partial_template`. -/
def partial_line (blocks : List TemplateBlock) (line_num : Nat) (line : Line) : Line :=
  if included_line blocks line_num then line
  else if (pyStrip (rstripNewlines line)).isEmpty then line
  else comment_wrap (rstripNewlines line)

/-- The reconstruction loop of `IncrementalExecutor._create_partial_template`. -/
def partial_lines (blocks : List TemplateBlock) : Nat → List Line → List Line
  | _, [] => []
  | i, l :: ls => partial_line blocks i l :: partial_lines blocks (i + 1) ls

/-- Model of `IncrementalExecutor._create_partial_template`. -/
def create_partial_template (content : List Char) (blocks_to_include : List TemplateBlock) :
    List Char :=
  (partial_lines blocks_to_include 1 (splitlines_keepends content)).flatten

/-- One oracle probe, as recorded in `SearchStep` / `LineSearchStep`
(`result` abstracted to its `success` flag; the `blocks_tested` /
`lines_tested` strings are derivable from `index`). -/
structure ProbeStep where
  step_number : Nat
  index : Int
  passed : Bool
deriving DecidableEq

/-- Model of `searcher.SearchResult`, plus a `probes` instrumentation counter
(number of helm invocations); the reporting-only fields (`failing_block`
content, `error_result`, `template`) are omitted. -/
structure BlockSearchResult where
  found_error : Bool
  failing_block_index : Option Int := none
  last_successful_block_index : Option Int := none
  steps : List ProbeStep := []
  probes : Nat := 0
deriving DecidableEq

/-- Model of `line_searcher.LineSearchResult`, with the same abstractions. -/
structure LineSearchResult where
  found_error : Bool
  failing_line : Option Int := none
  last_successful_line : Option Int := none
  steps : List ProbeStep := []
  probes : Nat := 0
deriving DecidableEq

/-- The `while low <= high` loop shared verbatim by
`BinarySearcher.search` and `LineBinarySearcher.search`: probe
`mid = (low + high) // 2`, on success record `mid` as last-known-good
and move `low` up, on failure record `mid` as the failing candidate and
move `high` down.  Returns the final `last_successful`, the failing
candidate, and the recorded steps. -/
def bisect_loop (oracle : Int → Bool) (low high : Int) (step_number : Nat)
    (last_successful : Int) (failing_index : Option Int) (steps : List ProbeStep) :
    Int × Option Int × List ProbeStep :=
  if low ≤ high then
    if oracle ((low + high) / 2) then
      bisect_loop oracle ((low + high) / 2 + 1) high (step_number + 1) ((low + high) / 2)
        failing_index (steps ++ [⟨step_number + 1, (low + high) / 2, true⟩])
    else
      bisect_loop oracle low ((low + high) / 2 - 1) (step_number + 1) last_successful
        (some ((low + high) / 2)) (steps ++ [⟨step_number + 1, (low + high) / 2, false⟩])
  else
    (last_successful, failing_index, steps)
  termination_by (high + 1 - low).toNat
  decreasing_by all_goals omega

/-- Model of `BinarySearcher.search` over a document with `n` parsed blocks:
`full_succeeds` is the outcome of `validate_full_template()` (one helm
probe), `oracle m` the outcome of `execute_up_to_block(template, m)`.
On convergence the source re-probes the failing index for diagnostics,
hence the extra probe. -/
def BinarySearcher_search (n : Nat) (full_succeeds : Bool) (oracle : Int → Bool) :
    BlockSearchResult :=
  if n = 0 then { found_error := false }
  else if full_succeeds then { found_error := false, probes := 1 }
  else
    match bisect_loop oracle 0 ((n : Int) - 1) 0 (-1) none [] with
    | (last_successful, some f, steps) =>
      { found_error := true
        failing_block_index := some f
        last_successful_block_index := if 0 ≤ last_successful then some last_successful else none
        steps := steps
        probes := steps.length + 2 }
    | (_, none, steps) =>
      { found_error := false, steps := steps, probes := steps.length + 1 }

/-- Model of `LineBinarySearcher.search` over a document with `total` lines:
`oracle m` is the outcome of `execute_up_to_line(template, m)`.  Note
the source performs no full-document pre-check here; on convergence it
re-probes the failing line once for the final diagnostics. -/
def LineBinarySearcher_search (total : Nat) (oracle : Int → Bool) : LineSearchResult :=
  if total = 0 then { found_error := false }
  else
    match bisect_loop oracle 1 (total : Int) 0 0 none [] with
    | (last_successful, some f, steps) =>
      { found_error := true
        failing_line := some f
        last_successful_line := if 0 < last_successful then some last_successful else none
        steps := steps
        probes := steps.length + 1 }
    | (_, none, steps) =>
      { found_error := false, steps := steps, probes := steps.length }

/-- The `for i in range(start, stop + 1)` loop shared by
`StepByStepSearcher.search` and `LineStepByStepSearcher.search`: probe
cutoffs one at a time, stop at the first failure. -/
def linear_loop (oracle : Int → Bool) (stop start : Int) (i : Int) (last_successful : Int)
    (steps : List ProbeStep) : Option Int × Int × List ProbeStep :=
  if i ≤ stop then
    if oracle i then
      linear_loop oracle stop start (i + 1) i (steps ++ [⟨(i - start + 1).toNat, i, true⟩])
    else
      (some i, last_successful, steps ++ [⟨(i - start + 1).toNat, i, false⟩])
  else
    (none, last_successful, steps)
  termination_by (stop + 1 - i).toNat
  decreasing_by omega

/-- Model of `StepByStepSearcher.search` (block-granularity linear scan starting
at block `start_from`); on completion without failure the source
reports `len(blocks) - 1` as last successful. -/
def StepByStepSearcher_search (n : Nat) (start_from : Nat) (oracle : Int → Bool) :
    BlockSearchResult :=
  if n = 0 then { found_error := false }
  else
    match linear_loop oracle ((n : Int) - 1) (start_from : Int) (start_from : Int) (-1) [] with
    | (some f, last_successful, steps) =>
      { found_error := true
        failing_block_index := some f
        last_successful_block_index := if 0 ≤ last_successful then some last_successful else none
        steps := steps
        probes := steps.length }
    | (none, _, steps) =>
      { found_error := false
        last_successful_block_index := some ((n : Int) - 1)
        steps := steps
        probes := steps.length }

/-- Model of `LineStepByStepSearcher.search` (line-granularity linear scan from
line `start_line`); on completion without failure the source reports
`total_lines` as last successful. -/
def LineStepByStepSearcher_search (total : Nat) (start_line : Nat) (oracle : Int → Bool) :
    LineSearchResult :=
  if total = 0 then { found_error := false }
  else
    match linear_loop oracle (total : Int) (start_line : Int) (start_line : Int) 0 [] with
    | (some f, last_successful, steps) =>
      { found_error := true
        failing_line := some f
        last_successful_line := if 0 < last_successful then some last_successful else none
        steps := steps
        probes := steps.length }
    | (none, _, steps) =>
      { found_error := false
        last_successful_line := some (total : Int)
        steps := steps
        probes := steps.length }

/-- The lines of a document paired with their 1-based line numbers
(starting at `c`); used to state the parse characterisation. -/
def numbered (c : Nat) : List Line → List (Nat × Line)
  | [] => []
  | l :: ls => (c, l) :: numbered (c + 1) ls

/-- Control-open block kinds (`if`/`range`/`with`/`define`). -/
def isOpenType (bt : BlockType) : Bool :=
  bt == .IF || bt == .RANGE || bt == .WITH || bt == .DEFINE

/-- Count of control-open units in a block list. -/
def count_open_units (blocks : List TemplateBlock) : Nat :=
  blocks.countP fun b => isOpenType b.block_type

/-- Count of control-close (`end`) units in a block list. -/
def count_close_units (blocks : List TemplateBlock) : Nat :=
  blocks.countP fun b => b.block_type == .END

/-- The running-depth update of `_parse_content`: control-open
increments, control-close decrements clamped at zero, everything else
leaves the depth unchanged. -/
def depth_step (n : Nat) (bt : BlockType) : Nat :=
  if bt = .IF ∨ bt = .RANGE ∨ bt = .WITH ∨ bt = .DEFINE then n + 1
  else if bt = .END then n - 1
  else n

/-- Fold of `depth_step` over a prefix of units, from starting depth `n`. -/
def run_depth (n : Nat) (bs : List TemplateBlock) : Nat :=
  bs.foldl (fun d b => depth_step d b.block_type) n

/-- Modelled from the spec: the comparison document of the
balance-preservation property — "the original document restricted to
the same line range plus all control lines beyond the cutoff": lines up
to the cutoff and control-structure lines are kept, all other lines are
removed. -/
def restricted_document_lines (end_line : Nat) : Nat → List Line → List Line
  | _, [] => []
  | i, l :: ls =>
    if i ≤ end_line ∨ is_control_line (dropBreak l) = true then
      l :: restricted_document_lines end_line (i + 1) ls
    else
      restricted_document_lines end_line (i + 1) ls

/-- A keepends line is proper when it is non-empty and contains `\n` at
most as its final character. -/
def properLine (l : List Char) : Bool :=
  !l.isEmpty && l.dropLast.all fun c => !(c == '\n')

/-- A keepends line is closed when it ends with `\n`. -/
def closedLine (l : List Char) : Bool :=
  l.getLast? == some '\n'

/-- Wellformed keepends line lists: every line proper, every non-final
line closed; `splitlines_keepends` always produces such a list, and
joining a wellformed list and re-splitting it is the identity. -/
def linesWF : List (List Char) → Bool
  | [] => true
  | [l] => properLine l
  | l :: ls => properLine l && closedLine l && linesWF ls

/-- The pattern table of the parser in source order, paired with the block
kind each pattern classifies; used to state the first-match-precedence
property of `_detect_block_type`. -/
def ordered_patterns : List (List PatTok × BlockType) :=
  [(pat_comment, .COMMENT), (pat_else_if, .ELSE_IF), (pat_else, .ELSE), (pat_end, .END),
    (pat_if_start, .IF), (pat_range_start, .RANGE), (pat_with_start, .WITH),
    (pat_define_start, .DEFINE), (pat_template, .TEMPLATE), (pat_include, .INCLUDE),
    (pat_expression, .EXPRESSION)]

/-- Ordered first-match classification over the stripped line, default
`PLAIN`; the spec description of `_detect_block_type`. -/
def first_match_classification (line : Line) : BlockType :=
  (ordered_patterns.findSome? fun pt =>
    if patSearch pt.1 (pyStrip line) then some pt.2 else none).getD .PLAIN

example : detect_block_type ('\x7b' :: '\x7b' :: ' ' :: 'i' :: 'f' :: ' ' :: 'x' :: ' ' :: '\x7d' :: '\x7d' :: ['\n']) = .IF := by decide

example : detect_block_type ('\x7b' :: '\x7b' :: ' ' :: 'e' :: 'n' :: 'd' :: ' ' :: '\x7d' :: '\x7d' :: ['\n']) = .END := by decide

example : detect_block_type ('a' :: ':' :: ' ' :: '\x7b' :: '\x7b' :: ' ' :: 'x' :: ' ' :: '\x7d' :: '\x7d' :: ['\n']) = .EXPRESSION := by decide

example : detect_block_type ['a', ':', ' ', 'b', '\n'] = .PLAIN := by decide

example :
    is_control_line ('\x7b' :: '\x7b' :: ' ' :: 'i' :: 'n' :: 'c' :: 'l' :: 'u' :: 'd' :: 'e' :: ' ' :: 'x' :: ' ' :: '\x7d' :: '\x7d' :: []) = false := by decide

example :
    is_control_line ('\x7b' :: '\x7b' :: ' ' :: 'b' :: 'l' :: 'o' :: 'c' :: 'k' :: ' ' :: 'x' :: ' ' :: '\x7d' :: '\x7d' :: []) = true := by decide

example :
    splitlines_keepends ['a', '\n', '\n', 'b'] = [['a', '\n'], ['\n'], ['b']] := by decide

example : parse_content [] = [] := by decide

/-! Splitting and joining lines. -/

theorem splitAux_flatten (cs : List Char) :
    ∀ acc : List Char, (splitAux acc cs).flatten = acc.reverse ++ cs := by
  induction cs with
  | nil =>
    intro acc
    by_cases h : acc.isEmpty
    · simp [splitAux, h, List.isEmpty_iff.mp h]
    · simp [splitAux, h]
  | cons c cs ih =>
    intro acc
    by_cases h : c = '\n'
    · simp [splitAux, h, ih]
    · have hb : (c == '\n') = false := by simpa using h
      simp [splitAux, hb, ih]

theorem flatten_splitlines_keepends (content : List Char) :
    (splitlines_keepends content).flatten = content := by
  simpa [splitlines_keepends] using splitAux_flatten content []

/-! Blank-line characterisations. -/

theorem pyStrip_eq_nil_iff (l : List Char) :
    pyStrip l = [] ↔ ∀ c ∈ l, isPySpace c = true := by
  simp only [pyStrip, List.reverse_eq_nil_iff, List.dropWhile_eq_nil_iff, List.mem_reverse]
  constructor
  · intro h c hc
    rw [← List.takeWhile_append_dropWhile (p := isPySpace) (l := l)] at hc
    rcases List.mem_append.mp hc with h1 | h1
    · exact List.mem_takeWhile_imp h1
    · exact h c h1
  · intro h c hc
    exact h c ((List.dropWhile_sublist _).subset hc)

theorem newline_isPySpace {c : Char} (h : (c == '\n' || c == '\r') = true) :
    isPySpace c = true := by
  rcases Bool.or_eq_true_iff.mp h with h1 | h1
  · rw [show c = '\n' from by simpa using h1]; decide
  · rw [show c = '\r' from by simpa using h1]; decide

theorem pyStrip_rstripNewlines_eq_nil (l : Line) :
    (pyStrip (rstripNewlines l) = []) ↔ (pyStrip l = []) := by
  simp only [pyStrip_eq_nil_iff]
  constructor
  · intro h c hc
    have hrev : c ∈ l.reverse := List.mem_reverse.mpr hc
    rw [← List.takeWhile_append_dropWhile
      (p := fun c => c == '\n' || c == '\r') (l := l.reverse)] at hrev
    rcases List.mem_append.mp hrev with h1 | h1
    · exact newline_isPySpace (by simpa using List.mem_takeWhile_imp h1)
    · exact h c (by simpa [rstripNewlines, List.mem_reverse] using h1)
  · intro h c hc
    have hc' : c ∈ l.reverse.dropWhile (fun c => c == '\n' || c == '\r') := by
      simpa [rstripNewlines, List.mem_reverse] using hc
    exact h c (List.mem_reverse.mp ((List.dropWhile_sublist _).subset hc'))

/-! Characterisation of the parser scan. -/


theorem parse_lines_countP (p : BlockType → Bool) (lines : List Line) : ∀ c n : Nat,
    (parse_lines lines c n).countP (fun b => p b.block_type) =
      lines.countP fun l => !(pyStrip l).isEmpty && p (detect_block_type l) := by
  induction lines with
  | nil => intro c n; simp [parse_lines]
  | cons l rest ih =>
    intro c n
    by_cases hb : (pyStrip l).isEmpty
    · simp [parse_lines, hb, List.countP_cons, ih]
    · rw [parse_lines]
      simp only [hb, Bool.false_eq_true, if_false]
      split
      · simp [List.countP_cons, ih, hb]
      · split
        · simp [List.countP_cons, ih, hb]
        · split
          · simp [List.countP_cons, ih, hb]
          · simp [List.countP_cons, ih, hb]

theorem parse_lines_proj (lines : List Line) : ∀ c n : Nat,
    (parse_lines lines c n).map (fun b => (b.block_type, b.content, b.start_line, b.end_line)) =
      ((numbered c lines).filter fun p => !(pyStrip p.2).isEmpty).map
        (fun p => (detect_block_type p.2, p.2, p.1, p.1)) := by
  induction lines with
  | nil => intro c n; simp [parse_lines, numbered]
  | cons l rest ih =>
    intro c n
    by_cases hb : (pyStrip l).isEmpty
    · simp [parse_lines, numbered, hb, ih]
    · rw [parse_lines, numbered]
      simp only [hb, Bool.false_eq_true, if_false]
      split
      · simp [List.filter_cons, ih, hb]
      · split
        · simp [List.filter_cons, ih, hb]
        · split
          · simp [List.filter_cons, ih, hb]
          · simp [List.filter_cons, ih, hb]

theorem parse_lines_covers (lines : List Line) : ∀ c n j : Nat, ∀ l : Line,
    lines[j]? = some l → (pyStrip l).isEmpty = false →
    included_line (parse_lines lines c n) (c + j) = true := by
  induction lines with
  | nil => intro c n j l h _; simp at h
  | cons l0 rest ih =>
    intro c n j l hj hb
    cases j with
    | zero =>
      have hl : l0 = l := by simpa using hj
      subst hl
      rw [parse_lines]
      simp only [hb, Bool.false_eq_true, if_false]
      split
      · simp [included_line]
      · split
        · simp [included_line]
        · split
          · simp [included_line]
          · simp [included_line]
    | succ j =>
      have hj' : rest[j]? = some l := by simpa using hj
      by_cases hb0 : (pyStrip l0).isEmpty
      · rw [parse_lines]
        simp only [hb0, if_true]
        have h1 := ih (c + 1) n j l hj' hb
        rwa [show c + 1 + j = c + (j + 1) from by omega] at h1
      · rw [parse_lines]
        have h1 := ih (c + 1) n j l hj' hb
        have h2 := ih (c + 1) (n + 1) j l hj' hb
        have h3 := ih (c + 1) (n - 1) j l hj' hb
        rw [show c + 1 + j = c + (j + 1) from by omega] at h1 h2 h3
        simp only [hb0, Bool.false_eq_true, if_false]
        split
        · simp [included_line] at h2 ⊢
          exact h2
        · split
          · simp [included_line] at h3 ⊢
            exact h3
          · split
            · simp [included_line] at h1 ⊢
              exact h1
            · simp [included_line] at h1 ⊢
              exact h1

theorem partial_lines_id (lines : List Line) : ∀ c : Nat, ∀ blocks : List TemplateBlock,
    (∀ j l, lines[j]? = some l → (pyStrip l).isEmpty = false →
      included_line blocks (c + j) = true) →
    partial_lines blocks c lines = lines := by
  induction lines with
  | nil => intro c blocks _; rfl
  | cons l rest ih =>
    intro c blocks h
    rw [partial_lines]
    have htail : partial_lines blocks (c + 1) rest = rest := by
      apply ih
      intro j x hj hbx
      have h1 := h (j + 1) x (by simpa using hj) hbx
      rwa [show c + (j + 1) = c + 1 + j from by omega] at h1
    rw [htail]
    by_cases hb : (pyStrip l).isEmpty
    · have hb2 : (pyStrip (rstripNewlines l)).isEmpty = true := by
        rw [List.isEmpty_iff] at hb ⊢
        exact (pyStrip_rstripNewlines_eq_nil l).mpr hb
      unfold partial_line
      split <;> simp [hb2]
    · have hincl := h 0 l (by simp) (by simpa using hb)
      rw [show c + 0 = c from rfl] at hincl
      unfold partial_line
      rw [if_pos hincl]

theorem reduce_lines_id (lines : List Line) : ∀ s N : Nat,
    s + lines.length ≤ N + 1 → reduce_lines N s lines = lines := by
  induction lines with
  | nil => intro s N _; rfl
  | cons l rest ih =>
    intro s N h
    rw [reduce_lines]
    have hs : s ≤ N := by simp at h; omega
    rw [ih (s + 1) N (by simp at h ⊢; omega)]
    unfold reduce_line
    rw [if_pos hs]
theorem detect_block_type_eq_first_match (l : Line) :
    detect_block_type l = first_match_classification l := by
  unfold detect_block_type first_match_classification ordered_patterns
  by_cases h1 : patSearch pat_comment (pyStrip l) = true
  · simp [List.findSome?_cons, h1]
  · 
      by_cases h2 : patSearch pat_else_if (pyStrip l) = true
      · simp [List.findSome?_cons, h1, h2]
      · 
          by_cases h3 : patSearch pat_else (pyStrip l) = true
          · simp [List.findSome?_cons, h1, h2, h3]
          · 
              by_cases h4 : patSearch pat_end (pyStrip l) = true
              · simp [List.findSome?_cons, h1, h2, h3, h4]
              · 
                  by_cases h5 : patSearch pat_if_start (pyStrip l) = true
                  · simp [List.findSome?_cons, h1, h2, h3, h4, h5]
                  · 
                      by_cases h6 : patSearch pat_range_start (pyStrip l) = true
                      · simp [List.findSome?_cons, h1, h2, h3, h4, h5, h6]
                      · 
                          by_cases h7 : patSearch pat_with_start (pyStrip l) = true
                          · simp [List.findSome?_cons, h1, h2, h3, h4, h5, h6, h7]
                          · 
                              by_cases h8 : patSearch pat_define_start (pyStrip l) = true
                              · simp [List.findSome?_cons, h1, h2, h3, h4, h5, h6, h7, h8]
                              · 
                                  by_cases h9 : patSearch pat_template (pyStrip l) = true
                                  · simp [List.findSome?_cons, h1, h2, h3, h4, h5, h6, h7, h8, h9]
                                  · 
                                      by_cases h10 : patSearch pat_include (pyStrip l) = true
                                      · simp [List.findSome?_cons, h1, h2, h3, h4, h5, h6, h7, h8, h9, h10]
                                      · 
                                          by_cases h11 : patSearch pat_expression (pyStrip l) = true
                                          · simp [List.findSome?_cons, h1, h2, h3, h4, h5, h6, h7, h8, h9, h10, h11]
                                          · simp [List.findSome?_cons, h1, h2, h3, h4, h5, h6, h7, h8, h9, h10, h11]

/-- C7: reducing with a full-inclusion range is the identity on the
document text: block-granularity reduction given all parsed blocks, and
line-cutoff reduction at a cutoff equal to the total line count, both
return the original content byte-for-byte. -/
theorem claim_C7_idempotence : ∀ content : List Char,
    create_partial_template content (parse_content content) = content ∧
    create_partial_by_line content (total_lines content) = content := by
  intro content
  constructor
  · rw [create_partial_template, parse_content]
    rw [partial_lines_id _ 1 _ (fun j l hj hb =>
      parse_lines_covers (splitlines_keepends content) 1 0 j l hj hb)]
    exact flatten_splitlines_keepends content
  · rw [create_partial_by_line, total_lines]
    rw [reduce_lines_id _ 1 _ (by omega)]
    exact flatten_splitlines_keepends content

/-- C6: parsing is a total function on text; blank lines spawn no unit;
every non-blank line yields exactly one unit whose start and end line
are its own 1-based line number, classified by the ordered
first-match-precedence table (comment, else-if, else, end, if, range,
with, define, template, include, expression, with plain as the
default); the empty document yields the empty unit sequence and zero
total lines. -/
theorem claim_C6_parser_totality :
    (∀ content : List Char,
      (parse_content content).map (fun b => (b.block_type, b.content, b.start_line, b.end_line)) =
        ((numbered 1 (splitlines_keepends content)).filter fun p => !(pyStrip p.2).isEmpty).map
          (fun p => (first_match_classification p.2, p.2, p.1, p.1))) ∧
    parse_content [] = [] ∧ total_lines [] = 0 := by
  refine ⟨fun content => ?_, rfl, rfl⟩
  rw [parse_content, parse_lines_proj]
  simp only [detect_block_type_eq_first_match]

/-! Wellformed keepends line lists and the resplit property. -/

theorem splitAux_append_no_newline (core : List Char) : ∀ acc cs : List Char,
    (∀ c ∈ core, ¬(c = '\n')) →
    splitAux acc (core ++ cs) = splitAux (core.reverse ++ acc) cs := by
  induction core with
  | nil => intro acc cs _; simp
  | cons c core ih =>
    intro acc cs h
    have hc : (c == '\n') = false := by
      simpa using h c (by simp)
    rw [List.cons_append, splitAux, if_neg (by simp [hc])]
    rw [ih (c :: acc) cs (fun x hx => h x (by simp [hx]))]
    congr 1
    simp

theorem properLine_parts {l : List Char} (hp : properLine l = true) :
    l ≠ [] ∧ ∀ c ∈ l.dropLast, ¬(c = '\n') := by
  simp only [properLine, Bool.and_eq_true, Bool.not_eq_true', List.all_eq_true] at hp
  refine ⟨fun h => by simp [h] at hp, fun c hc => ?_⟩
  have h2 := hp.2 c hc
  simpa using h2

theorem closed_decomp {l : List Char} (hp : properLine l = true) (hc : closedLine l = true) :
    l = l.dropLast ++ ['\n'] := by
  have hne := (properLine_parts hp).1
  have hl : l.getLast? = some '\n' := by simpa [closedLine] using hc
  rw [List.getLast?_eq_getLast l hne] at hl
  conv_lhs => rw [← List.dropLast_append_getLast hne]
  rw [Option.some_inj.mp hl]

theorem open_no_newline {l : List Char} (hp : properLine l = true) (hc : closedLine l = false) :
    ∀ c ∈ l, ¬(c = '\n') := by
  obtain ⟨hne, hdrop⟩ := properLine_parts hp
  intro c hcm
  rw [← List.dropLast_append_getLast hne] at hcm
  rcases List.mem_append.mp hcm with h | h
  · exact hdrop c h
  · have hcg : c = l.getLast hne := by simpa using h
    intro hEq
    have hgl : l.getLast? = some '\n' := by
      rw [List.getLast?_eq_getLast l hne, ← hcg, hEq]
    simp [closedLine, hgl] at hc

theorem linesWF_cons {x : List Char} {tail : List (List Char)}
    (hp : properLine x = true) (hc : closedLine x = true) (ht : linesWF tail = true) :
    linesWF (x :: tail) = true := by
  cases tail with
  | nil => simpa [linesWF] using hp
  | cons y ys => simp [linesWF, hp, hc, ht]

theorem linesWF_cons_elim {x : List Char} {tail : List (List Char)}
    (h : linesWF (x :: tail) = true) :
    properLine x = true ∧ linesWF tail = true ∧ (tail ≠ [] → closedLine x = true) := by
  cases tail with
  | nil =>
    refine ⟨by simpa [linesWF] using h, rfl, fun h' => absurd rfl h'⟩
  | cons y ys =>
    simp only [linesWF, Bool.and_eq_true] at h
    exact ⟨h.1.1, h.2, fun _ => h.1.2⟩

theorem splitAux_WF (cs : List Char) : ∀ acc : List Char,
    (∀ c ∈ acc, ¬(c = '\n')) → linesWF (splitAux acc cs) = true := by
  induction cs with
  | nil =>
    intro acc h
    rw [splitAux]
    by_cases he : acc.isEmpty
    · simp [he, linesWF]
    · rw [if_neg he]
      have hne : acc.reverse ≠ [] := by
        simp only [ne_eq, List.reverse_eq_nil_iff]
        intro hx
        simp [hx] at he
      simp only [linesWF, properLine, Bool.and_eq_true, List.all_eq_true]
      refine ⟨by simpa using hne, fun c hc => ?_⟩
      have hmem : c ∈ acc.reverse := (List.dropLast_sublist acc.reverse).subset hc
      simpa using h c (List.mem_reverse.mp hmem)
  | cons c cs ih =>
    intro acc h
    rw [splitAux]
    by_cases hc : c = '\n'
    · rw [if_pos (by simp [hc])]
      apply linesWF_cons
      · simp only [properLine, List.dropLast_concat, Bool.and_eq_true, List.all_eq_true]
        refine ⟨by simp, fun x hx => ?_⟩
        simpa using h x (List.mem_reverse.mp hx)
      · simp [closedLine]
      · exact ih [] (by simp)
    · rw [if_neg (by simp [hc])]
      refine ih (c :: acc) ?_
      intro x hx
      rcases List.mem_cons.mp hx with h1 | h1
      · exact h1 ▸ hc
      · exact h x h1

theorem flatten_resplit : ∀ ls : List (List Char), linesWF ls = true →
    splitAux [] ls.flatten = ls := by
  intro ls
  induction ls with
  | nil => intro _; rfl
  | cons l rest ih =>
    intro h
    obtain ⟨hp, hwf, hcl⟩ := linesWF_cons_elim h
    rw [List.flatten_cons]
    by_cases hc : closedLine l = true
    · have hdecomp := closed_decomp hp hc
      conv_lhs => rw [hdecomp]
      rw [show (l.dropLast ++ ['\n']) ++ rest.flatten = l.dropLast ++ ('\n' :: rest.flatten) from
        by simp]
      rw [splitAux_append_no_newline l.dropLast [] ('\n' :: rest.flatten) (properLine_parts hp).2]
      rw [splitAux, if_pos (by simp)]
      rw [ih hwf]
      rw [show (l.dropLast.reverse ++ ([] : List Char)).reverse ++ ['\n'] = l.dropLast ++ ['\n']
        from by simp]
      rw [← hdecomp]
    · have hrest : rest = [] := by
        by_contra hne
        exact hc (hcl hne)
      subst hrest
      simp only [List.flatten_nil, List.append_nil]
      have hall := open_no_newline hp (by simpa using hc)
      rw [show l = l ++ ([] : List Char) from by simp]
      rw [splitAux_append_no_newline l [] [] hall]
      rw [splitAux]
      have hne := (properLine_parts hp).1
      rw [if_neg (by simpa using hne)]
      simp

theorem reduce_line_cases (N s : Nat) (l : Line) :
    reduce_line N s l = l ∨ reduce_line N s l = ['\n'] := by
  unfold reduce_line
  split_ifs <;> simp

theorem reduce_lines_WF (N : Nat) : ∀ (lines : List (List Char)) (s : Nat),
    linesWF lines = true → linesWF (reduce_lines N s lines) = true := by
  intro lines
  induction lines with
  | nil => intro s _; rfl
  | cons l rest ih =>
    intro s h
    obtain ⟨hp, hwf, hcl⟩ := linesWF_cons_elim h
    rw [reduce_lines]
    have hp' : properLine (reduce_line N s l) = true := by
      rcases reduce_line_cases N s l with h1 | h1 <;> rw [h1]
      · exact hp
      · decide
    cases rest with
    | nil => simpa [reduce_lines, linesWF] using hp'
    | cons y ys =>
      have hcll : closedLine l = true := hcl (by simp)
      have hc' : closedLine (reduce_line N s l) = true := by
        rcases reduce_line_cases N s l with h1 | h1 <;> rw [h1]
        · exact hcll
        · decide
      exact linesWF_cons hp' hc' (ih (s + 1) hwf)

theorem splitlines_create_partial_by_line (content : List Char) (N : Nat) :
    splitlines_keepends (create_partial_by_line content N) =
      reduce_lines N 1 (splitlines_keepends content) := by
  rw [create_partial_by_line]
  exact flatten_resplit _
    (reduce_lines_WF N _ 1 (splitAux_WF content [] (by simp)))

/-! Pointwise characterisation and counting for line-cutoff reduction. -/

theorem reduce_lines_length (N : Nat) : ∀ (lines : List Line) (s : Nat),
    (reduce_lines N s lines).length = lines.length := by
  intro lines
  induction lines with
  | nil => intro s; rfl
  | cons l rest ih => intro s; simp [reduce_lines, ih]

theorem reduce_lines_getElem (N : Nat) : ∀ (lines : List Line) (s j : Nat),
    (reduce_lines N s lines)[j]? = (lines[j]?).map fun l => reduce_line N (s + j) l := by
  intro lines
  induction lines with
  | nil => intro s j; simp [reduce_lines]
  | cons l rest ih =>
    intro s j
    cases j with
    | zero => simp [reduce_lines]
    | succ j =>
      rw [reduce_lines]
      simp only [List.getElem?_cons_succ]
      rw [ih (s + 1) j, show s + 1 + j = s + (j + 1) from by omega]

theorem reduce_restrict_countP (p : BlockType → Bool) : ∀ (lines : List Line) (s N : Nat),
    (reduce_lines N s lines).countP (fun l => !(pyStrip l).isEmpty && p (detect_block_type l)) =
      (restricted_document_lines N s lines).countP
        (fun l => !(pyStrip l).isEmpty && p (detect_block_type l)) := by
  intro lines
  induction lines with
  | nil => intro s N; rfl
  | cons l rest ih =>
    intro s N
    rw [reduce_lines, restricted_document_lines]
    unfold reduce_line
    by_cases h1 : s ≤ N
    · simp [h1, List.countP_cons, ih]
    · by_cases h2 : is_control_line (dropBreak l) = true
      · simp [h1, h2, List.countP_cons, ih]
      · by_cases h3 : (pyStrip (rstripNewlines l)).isEmpty = true
        · have hb : (pyStrip l).isEmpty = true := by
            rw [List.isEmpty_iff] at h3 ⊢
            exact (pyStrip_rstripNewlines_eq_nil l).mp h3
          simp [h1, h2, h3, List.countP_cons, hb, ih]
        · simp [h1, h2, h3, List.countP_cons, ih,
            show (pyStrip ['\n']).isEmpty = true from by decide]

/-- C2 (amended): under line-cutoff reduction, lines `1..N` pass through
verbatim; a line after `N` passes through verbatim exactly when it
matches one of the analyzer control patterns (`if`/`else`/`else if`/
`end`/`range`/`with`/`define`/`template`/`block` — note `include` is
*not* among them), otherwise a blank line passes through unchanged and
any other line is neutralised to a bare newline.  The first conjunct
identifies the written text with the per-line transformation. -/
theorem claim_C2_line_cutoff :
    (∀ (content : List Char) (N : Nat),
      splitlines_keepends (create_partial_by_line content N) =
        reduce_lines N 1 (splitlines_keepends content)) ∧
    (∀ (lines : List Line) (N j : Nat),
      (reduce_lines N 1 lines)[j]? = (lines[j]?).map fun l =>
        if j + 1 ≤ N then l
        else if is_control_line (dropBreak l) = true then l
        else if (pyStrip (rstripNewlines l)).isEmpty = true then l
        else ['\n']) := by
  refine ⟨splitlines_create_partial_by_line, fun lines N j => ?_⟩
  rw [reduce_lines_getElem]
  unfold reduce_line
  rw [show 1 + j = j + 1 from by omega]

/-- Line `{{ include x }}` with its terminator. -/
def include_line_example : Line :=
  '\x7b' :: '\x7b' :: ' ' :: 'i' :: 'n' :: 'c' :: 'l' :: 'u' :: 'd' :: 'e' :: ' ' :: 'x' ::
    ' ' :: '\x7d' :: '\x7d' :: ['\n']

/-- A two-line document whose second line is a cross-reference
(`include`) line. -/
def include_doc_example : List Char := 'a' :: '\n' :: include_line_example

/-- C2 counterexample: in `include_doc_example` with cutoff 1, line 2 is
classified as a cross-reference (`include`) unit by the parser, yet it
is neutralised to a bare newline rather than passed through verbatim,
because the analyzer control patterns do not contain `include`. -/
theorem claim_C2_counterexample :
    detect_block_type include_line_example = .INCLUDE ∧
    is_control_line (dropBreak include_line_example) = false ∧
    (reduce_lines 1 1 (splitlines_keepends include_doc_example))[1]? = some ['\n'] ∧
    ¬((reduce_lines 1 1 (splitlines_keepends include_doc_example))[1]? =
        some include_line_example) ∧
    create_partial_by_line include_doc_example 1 = ['a', '\n', '\n'] := by decide

theorem count_open_parse (lines : List Line) (c n : Nat) :
    count_open_units (parse_lines lines c n) =
      lines.countP fun l => !(pyStrip l).isEmpty && isOpenType (detect_block_type l) :=
  parse_lines_countP isOpenType lines c n

theorem count_close_parse (lines : List Line) (c n : Nat) :
    count_close_units (parse_lines lines c n) =
      lines.countP fun l => !(pyStrip l).isEmpty && (detect_block_type l == BlockType.END) :=
  parse_lines_countP (fun t => t == BlockType.END) lines c n

/-- C5: for every cutoff, the line-cutoff reduced output contains the
same number of control-open units and of control-close units as the
original document restricted to lines up to the cutoff plus all control
lines beyond it; moreover a control line always appears verbatim at its
own position in the reduced output, whatever the cutoff. -/
theorem claim_C5_balance_preservation :
    (∀ (content : List Char) (N : Nat),
      count_open_units (parse_content (create_partial_by_line content N)) =
        count_open_units
          (parse_lines (restricted_document_lines N 1 (splitlines_keepends content)) 1 0) ∧
      count_close_units (parse_content (create_partial_by_line content N)) =
        count_close_units
          (parse_lines (restricted_document_lines N 1 (splitlines_keepends content)) 1 0)) ∧
    (∀ (lines : List Line) (N j : Nat) (l : Line),
      lines[j]? = some l → is_control_line (dropBreak l) = true →
      (reduce_lines N 1 lines)[j]? = some l) := by
  constructor
  · intro content N
    constructor
    · rw [parse_content, splitlines_create_partial_by_line,
        count_open_parse, count_open_parse]
      exact reduce_restrict_countP isOpenType _ 1 N
    · rw [parse_content, splitlines_create_partial_by_line,
        count_close_parse, count_close_parse]
      exact reduce_restrict_countP (fun t => t == BlockType.END) _ 1 N
  · intro lines N j l hj hctl
    rw [reduce_lines_getElem, hj]
    unfold reduce_line
    by_cases h1 : 1 + j ≤ N
    · simp [h1]
    · simp [h1, hctl]

/-- Line `{{ end }}` with its terminator. -/
def end_line_example : Line :=
  '\x7b' :: '\x7b' :: ' ' :: 'e' :: 'n' :: 'd' :: ' ' :: '\x7d' :: '\x7d' :: ['\n']

/-- A 20-line document whose line 20 is an unmatched `end`. -/
def unmatched_end_doc : List Line := List.replicate 19 ['a', '\n'] ++ [end_line_example]

/-- C5 witness: the spec scenario — cutoff 15 on a document with an
unmatched control-close on line 20 still reproduces line 20 verbatim. -/
theorem claim_C5_witness :
    unmatched_end_doc[19]? = some end_line_example ∧
    is_control_line (dropBreak end_line_example) = true ∧
    (reduce_lines 15 1 unmatched_end_doc)[19]? = some end_line_example :=
  ⟨by decide, by decide,
    claim_C5_balance_preservation.2 unmatched_end_doc 15 19 end_line_example
      (by decide) (by decide)⟩

/-! Nesting-depth characterisation of the parser. -/

theorem run_depth_cons (n : Nat) (b : TemplateBlock) (bs : List TemplateBlock) :
    run_depth n (b :: bs) = run_depth (depth_step n b.block_type) bs := rfl

theorem parse_lines_nesting (lines : List Line) : ∀ c n j : Nat, ∀ b : TemplateBlock,
    (parse_lines lines c n)[j]? = some b →
    b.nesting_level =
      run_depth n ((parse_lines lines c n).take j) -
        (if b.block_type = .END ∨ b.block_type = .ELSE ∨ b.block_type = .ELSE_IF then 1
          else 0) := by
  induction lines with
  | nil => intro c n j b h; simp [parse_lines] at h
  | cons l rest ih =>
    intro c n j b h
    by_cases hb : (pyStrip l).isEmpty
    · rw [parse_lines, if_pos hb] at h ⊢
      exact ih (c + 1) n j b h
    · by_cases h1 : detect_block_type l = .IF ∨ detect_block_type l = .RANGE ∨
          detect_block_type l = .WITH ∨ detect_block_type l = .DEFINE
      · have heq : parse_lines (l :: rest) c n =
            ⟨detect_block_type l, l, c, c, n⟩ :: parse_lines rest (c + 1) (n + 1) := by
          rw [parse_lines, if_neg hb]
          dsimp only
          rw [if_pos h1]
        rw [heq] at h ⊢
        cases j with
        | zero =>
          have hbb : b = ⟨detect_block_type l, l, c, c, n⟩ := by
            simpa using h.symm
          subst hbb
          rcases h1 with h1 | h1 | h1 | h1 <;> simp [run_depth, h1]
        | succ j =>
          have h' : (parse_lines rest (c + 1) (n + 1))[j]? = some b := by simpa using h
          rw [List.take_succ_cons, run_depth_cons,
            show depth_step n (⟨detect_block_type l, l, c, c, n⟩ : TemplateBlock).block_type
              = n + 1 from by simp [depth_step, h1]]
          exact ih (c + 1) (n + 1) j b h'
      · by_cases h2 : detect_block_type l = .END
        · have heq : parse_lines (l :: rest) c n =
              ⟨detect_block_type l, l, c, c, n - 1⟩ :: parse_lines rest (c + 1) (n - 1) := by
            rw [parse_lines, if_neg hb]
            dsimp only
            rw [if_neg h1, if_pos h2]
          rw [heq] at h ⊢
          cases j with
          | zero =>
            have hbb : b = ⟨detect_block_type l, l, c, c, n - 1⟩ := by
              simpa using h.symm
            subst hbb
            simp [run_depth, h2]
          | succ j =>
            have h' : (parse_lines rest (c + 1) (n - 1))[j]? = some b := by simpa using h
            rw [List.take_succ_cons, run_depth_cons,
              show depth_step n (⟨detect_block_type l, l, c, c, n - 1⟩ :
                TemplateBlock).block_type = n - 1 from by simp [depth_step, h1, h2]]
            exact ih (c + 1) (n - 1) j b h'
        · by_cases h3 : detect_block_type l = .ELSE ∨ detect_block_type l = .ELSE_IF
          · have heq : parse_lines (l :: rest) c n =
                ⟨detect_block_type l, l, c, c, n - 1⟩ :: parse_lines rest (c + 1) n := by
              rw [parse_lines, if_neg hb]
              dsimp only
              rw [if_neg h1, if_neg h2, if_pos h3]
            rw [heq] at h ⊢
            cases j with
            | zero =>
              have hbb : b = ⟨detect_block_type l, l, c, c, n - 1⟩ := by
                simpa using h.symm
              subst hbb
              rcases h3 with h3 | h3 <;> simp [run_depth, h3]
            | succ j =>
              have h' : (parse_lines rest (c + 1) n)[j]? = some b := by simpa using h
              rw [List.take_succ_cons, run_depth_cons,
                show depth_step n (⟨detect_block_type l, l, c, c, n - 1⟩ :
                  TemplateBlock).block_type = n from by
                    rcases h3 with h3 | h3 <;> simp [depth_step, h3]]
              exact ih (c + 1) n j b h'
          · have heq : parse_lines (l :: rest) c n =
                ⟨detect_block_type l, l, c, c, n⟩ :: parse_lines rest (c + 1) n := by
              rw [parse_lines, if_neg hb]
              dsimp only
              rw [if_neg h1, if_neg h2, if_neg h3]
            rw [heq] at h ⊢
            cases j with
            | zero =>
              have hbb : b = ⟨detect_block_type l, l, c, c, n⟩ := by
                simpa using h.symm
              subst hbb
              simp only [List.take_zero]
              rw [if_neg (by simpa using ⟨h2, fun hc => h3 (Or.inl hc), fun hc => h3 (Or.inr hc)⟩)]
              rfl
            | succ j =>
              have h' : (parse_lines rest (c + 1) n)[j]? = some b := by simpa using h
              rw [List.take_succ_cons, run_depth_cons,
                show depth_step n (⟨detect_block_type l, l, c, c, n⟩ :
                  TemplateBlock).block_type = n from by simp [depth_step, h1, h2]]
              exact ih (c + 1) n j b h'

/-- A three-line document: an unmatched `{{ end }}`, then `{{ if x }}`,
then plain content; its parsed units have nesting levels 0, 0, 1. -/
def nesting_example_doc : List Char :=
  '\x7b' :: '\x7b' :: ' ' :: 'e' :: 'n' :: 'd' :: ' ' :: '\x7d' :: '\x7d' :: '\n' ::
  '\x7b' :: '\x7b' :: ' ' :: 'i' :: 'f' :: ' ' :: 'x' :: ' ' :: '\x7d' :: '\x7d' :: '\n' ::
  'a' :: ['\n']

/-- C3 counterexample: in `nesting_example_doc`, the prefix of units
0..1 has one control-open and one control-close, so the claim
clamped difference is 0; yet unit 2 records nesting_level 1, because
the code clamps at every decrement, not once over the whole prefix. -/
theorem claim_C3_counterexample :
    count_open_units ((parse_content nesting_example_doc).take 2) = 1 ∧
    count_close_units ((parse_content nesting_example_doc).take 2) = 1 ∧
    ((parse_content nesting_example_doc)[2]?).map TemplateBlock.nesting_level = some 1 ∧
    count_open_units ((parse_content nesting_example_doc).take 2) -
        count_close_units ((parse_content nesting_example_doc).take 2) ≠ 1 := by decide

/-- C3 (amended): the nesting level recorded on unit `k+1` equals the
fold of the per-step clamped depth update (open adds one, close
subtracts one clamped at zero, others leave it) over units `0..k`,
minus one (clamped) when unit `k+1` is itself a close or a
continuation; in particular opens are recorded at the depth before
their increment, closes at the depth after their decrement, and
nesting levels are natural numbers, never negative. -/
theorem claim_C3_nesting_amended : ∀ (content : List Char) (j : Nat) (b : TemplateBlock),
    (parse_content content)[j]? = some b →
    b.nesting_level =
      run_depth 0 ((parse_content content).take j) -
        (if b.block_type = .END ∨ b.block_type = .ELSE ∨ b.block_type = .ELSE_IF then 1
          else 0) :=
  fun content j b h => parse_lines_nesting (splitlines_keepends content) 1 0 j b h

/-- C3 witness: the amended invariant evaluated on `nesting_example_doc`
at unit 2 (the plain line after `end` and `if`). -/
theorem claim_C3_witness :
    (parse_content nesting_example_doc)[2]? =
      some ⟨.PLAIN, ['a', '\n'], 3, 3, 1⟩ ∧
    (⟨.PLAIN, ['a', '\n'], 3, 3, 1⟩ : TemplateBlock).nesting_level =
      run_depth 0 ((parse_content nesting_example_doc).take 2) -
        (if (BlockType.PLAIN = .END ∨ BlockType.PLAIN = .ELSE ∨ BlockType.PLAIN = .ELSE_IF)
          then 1 else 0) :=
  ⟨by decide, claim_C3_nesting_amended nesting_example_doc 2 _ (by decide)⟩

/-! Properties of the shared bisection loop. -/

theorem bisect_loop_adjacent (oracle : Int → Bool) (low high : Int) (sn : Nat) (ls : Int)
    (f : Option Int) (st : List ProbeStep) :
    ls = low - 1 → (∀ x, f = some x → x = high + 1) → low ≤ high + 1 →
    ∀ y, (bisect_loop oracle low high sn ls f st).2.1 = some y →
      (bisect_loop oracle low high sn ls f st).1 = y - 1 := by
  induction low, high, sn, ls, f, st using bisect_loop.induct oracle with
  | case1 low high sn ls f st hlh hor ih =>
    intro _ h2 _ y
    rw [bisect_loop, if_pos hlh, if_pos hor]
    exact ih (by omega) h2 (by omega) y
  | case2 low high sn ls f st hlh hor ih =>
    intro h1 _ _ y
    rw [bisect_loop, if_pos hlh, if_neg hor]
    refine ih h1 (fun x hx => ?_) (by omega) y
    have := Option.some_inj.mp hx
    omega
  | case3 low high sn ls f st hlh =>
    intro h1 h2 h3 y hy
    rw [bisect_loop, if_neg hlh] at hy ⊢
    have h4 := h2 y hy
    show ls = y - 1
    omega

theorem bisect_loop_mono (oracle : Int → Bool) (k : Int)
    (horc : ∀ m, oracle m = true ↔ m < k) (low high : Int) (sn : Nat) (ls : Int)
    (f : Option Int) (st : List ProbeStep) :
    low ≤ k → k ≤ high + 1 → (f = none → k ≤ high) → (∀ x, f = some x → x = high + 1) →
    ls = low - 1 →
    (bisect_loop oracle low high sn ls f st).2.1 = some k ∧
      (bisect_loop oracle low high sn ls f st).1 = k - 1 := by
  induction low, high, sn, ls, f, st using bisect_loop.induct oracle with
  | case1 low high sn ls f st hlh hor ih =>
    intro h1 h2 h3 h4 h5
    rw [bisect_loop, if_pos hlh, if_pos hor]
    have hmid : (low + high) / 2 < k := (horc _).mp hor
    exact ih (by omega) h2 h3 h4 (by omega)
  | case2 low high sn ls f st hlh hor ih =>
    intro h1 h2 h3 h4 h5
    rw [bisect_loop, if_pos hlh, if_neg hor]
    have hmid : ¬((low + high) / 2 < k) := fun hc => hor ((horc _).mpr hc)
    refine ih h1 (by omega) (fun hc => by simp at hc) (fun x hx => ?_) h5
    have := Option.some_inj.mp hx
    omega
  | case3 low high sn ls f st hlh =>
    intro h1 h2 h3 h4 h5
    rw [bisect_loop, if_neg hlh]
    rcases hf : f with _ | x
    · exfalso
      have := h3 hf
      omega
    · have hx := h4 x hf
      refine ⟨?_, ?_⟩
      · show some x = some k
        rw [show x = k from by omega]
      · show ls = k - 1
        omega

theorem log2_le_log2 {a b : Nat} (h : a ≤ b) : Nat.log2 a ≤ Nat.log2 b := by
  simp only [Nat.log2_eq_log_two]
  exact Nat.log_mono_right h

theorem log2_half (n : Nat) : Nat.log2 (n / 2) = Nat.log2 n - 1 := by
  simp only [Nat.log2_eq_log_two]
  exact Nat.log_div_base 2 n

theorem log2_pos {n : Nat} (h : 2 ≤ n) : 1 ≤ Nat.log2 n := by
  simp only [Nat.log2_eq_log_two]
  exact Nat.log_pos (by norm_num) h

theorem bisect_loop_steps (oracle : Int → Bool) (low high : Int) (sn : Nat) (ls : Int)
    (f : Option Int) (st : List ProbeStep) :
    (bisect_loop oracle low high sn ls f st).2.2.length ≤
      st.length + (if low ≤ high then Nat.log2 ((high + 1 - low).toNat) + 1 else 0) := by
  induction low, high, sn, ls, f, st using bisect_loop.induct oracle with
  | case1 low high sn ls f st hlh hor ih =>
    rw [bisect_loop, if_pos hlh, if_pos hor, if_pos hlh]
    refine le_trans ih ?_
    have ha : (st ++ [(⟨sn + 1, (low + high) / 2, true⟩ : ProbeStep)]).length
        = st.length + 1 := by simp
    by_cases hc : (low + high) / 2 + 1 ≤ high
    · rw [if_pos hc]
      have hs : (high + 1 - ((low + high) / 2 + 1)).toNat ≤ (high + 1 - low).toNat / 2 := by
        omega
      have h2le : 2 ≤ (high + 1 - low).toNat := by omega
      have hlog := le_trans (log2_le_log2 hs) (le_of_eq (log2_half ((high + 1 - low).toNat)))
      have hpos := log2_pos h2le
      omega
    · rw [if_neg hc]
      omega
  | case2 low high sn ls f st hlh hor ih =>
    rw [bisect_loop, if_pos hlh, if_neg hor, if_pos hlh]
    refine le_trans ih ?_
    have ha : (st ++ [(⟨sn + 1, (low + high) / 2, false⟩ : ProbeStep)]).length
        = st.length + 1 := by simp
    by_cases hc : low ≤ (low + high) / 2 - 1
    · rw [if_pos hc]
      have hs : ((low + high) / 2 - 1 + 1 - low).toNat ≤ (high + 1 - low).toNat / 2 := by
        omega
      have h2le : 2 ≤ (high + 1 - low).toNat := by omega
      have hlog := le_trans (log2_le_log2 hs) (le_of_eq (log2_half ((high + 1 - low).toNat)))
      have hpos := log2_pos h2le
      omega
    · rw [if_neg hc]
      omega
  | case3 low high sn ls f st hlh =>
    rw [bisect_loop, if_neg hlh, if_neg hlh]
    show st.length ≤ st.length + 0
    omega

theorem bisect_loop_all_pass (oracle : Int → Bool) (hall : ∀ m, oracle m = true)
    (low high : Int) (sn : Nat) (ls : Int) (f : Option Int) (st : List ProbeStep) :
    (bisect_loop oracle low high sn ls f st).2.1 = f := by
  induction low, high, sn, ls, f, st using bisect_loop.induct oracle with
  | case1 low high sn ls f st hlh hor ih => rw [bisect_loop, if_pos hlh, if_pos hor]; exact ih
  | case2 low high sn ls f st hlh hor ih => exact absurd (hall _) hor
  | case3 low high sn ls f st hlh => rw [bisect_loop, if_neg hlh]

/-! Properties of the shared linear-scan loop. -/

theorem linear_loop_all_pass (oracle : Int → Bool) (stop start : Int) :
    ∀ (i ls : Int) (st : List ProbeStep),
      (∀ j, i ≤ j → j ≤ stop → oracle j = true) →
      (linear_loop oracle stop start i ls st).1 = none ∧
      (linear_loop oracle stop start i ls st).2.2.length =
        st.length + (stop + 1 - i).toNat := by
  intro i ls st
  induction i, ls, st using linear_loop.induct oracle stop start with
  | case1 i ls st hle hor ih =>
    intro h
    rw [linear_loop, if_pos hle, if_pos hor]
    obtain ⟨ha, hb⟩ := ih (fun j h1 h2 => h j (by omega) h2)
    refine ⟨ha, ?_⟩
    rw [hb]
    simp only [List.length_append, List.length_cons, List.length_nil]
    omega
  | case2 i ls st hle hor =>
    intro h
    exact absurd (h i (by omega) hle) hor
  | case3 i ls st hle =>
    intro _
    rw [linear_loop, if_neg hle]
    refine ⟨rfl, ?_⟩
    show st.length = st.length + (stop + 1 - i).toNat
    omega

theorem linear_loop_first_fail (oracle : Int → Bool) (stop start fI : Int)
    (hfail : oracle fI = false) (hstop : fI ≤ stop) :
    ∀ (i ls : Int) (st : List ProbeStep),
      i ≤ fI → (∀ j, i ≤ j → j < fI → oracle j = true) →
      (linear_loop oracle stop start i ls st).1 = some fI ∧
      (linear_loop oracle stop start i ls st).2.2.length =
        st.length + (fI + 1 - i).toNat := by
  intro i ls st
  induction i, ls, st using linear_loop.induct oracle stop start with
  | case1 i ls st hle hor ih =>
    intro h1 h2
    rw [linear_loop, if_pos hle, if_pos hor]
    have hne : ¬(i = fI) := fun hc => by rw [hc] at hor; rw [hfail] at hor; exact absurd hor (by simp)
    obtain ⟨ha, hb⟩ := ih (by omega) (fun j hj1 hj2 => h2 j (by omega) hj2)
    refine ⟨ha, ?_⟩
    rw [hb]
    simp only [List.length_append, List.length_cons, List.length_nil]
    omega
  | case2 i ls st hle hor =>
    intro h1 h2
    have hieq : i = fI := by
      by_contra hne
      exact hor (h2 i (by omega) (by omega))
    rw [linear_loop, if_pos hle, if_neg hor]
    subst hieq
    refine ⟨rfl, ?_⟩
    show (st ++ [({ step_number := (i - start + 1).toNat, index := i, passed := false } :
      ProbeStep)]).length = st.length + (i + 1 - i).toNat
    simp only [List.length_append, List.length_cons, List.length_nil]
    omega
  | case3 i ls st hle =>
    intro h1 h2
    omega

/-- C9: on an empty document (zero lines, hence zero parsed units) all
four searchers return no-error with an empty step list and perform no
oracle probe at all. -/
theorem claim_C9_empty_document :
    ∀ (full : Bool) (oracle : Int → Bool) (start : Nat),
      BinarySearcher_search 0 full oracle =
        { found_error := false, failing_block_index := none,
          last_successful_block_index := none, steps := [], probes := 0 } ∧
      StepByStepSearcher_search 0 start oracle =
        { found_error := false, failing_block_index := none,
          last_successful_block_index := none, steps := [], probes := 0 } ∧
      LineBinarySearcher_search 0 oracle =
        { found_error := false, failing_line := none,
          last_successful_line := none, steps := [], probes := 0 } ∧
      LineStepByStepSearcher_search 0 start oracle =
        { found_error := false, failing_line := none,
          last_successful_line := none, steps := [], probes := 0 } ∧
      parse_content [] = [] ∧ total_lines [] = 0 :=
  fun _ _ _ => ⟨rfl, rfl, rfl, rfl, rfl, rfl⟩

/-- C10: for any oracle behaviour whatsoever, whenever bisection reports
an error together with a non-null last-known-good index, the failing
index is exactly the last-known-good index plus one, in both the block
and the line searcher. -/
theorem claim_C10_adjacent_indices (n : Nat) (full : Bool) (oracle : Int → Bool)
    (m fI : Int) :
    ((BinarySearcher_search n full oracle).found_error = true →
      (BinarySearcher_search n full oracle).last_successful_block_index = some m →
      (BinarySearcher_search n full oracle).failing_block_index = some fI →
      fI = m + 1) ∧
    ((LineBinarySearcher_search n oracle).found_error = true →
      (LineBinarySearcher_search n oracle).last_successful_line = some m →
      (LineBinarySearcher_search n oracle).failing_line = some fI →
      fI = m + 1) := by
  constructor
  · rw [BinarySearcher_search]
    by_cases hn0 : n = 0
    · rw [if_pos hn0]
      intro h
      simp at h
    · rw [if_neg hn0]
      by_cases hfull : full = true
      · rw [if_pos hfull]
        intro h
        simp at h
      · rw [if_neg hfull]
        have hadj := bisect_loop_adjacent oracle 0 ((n : Int) - 1) 0 (-1) none []
          (by norm_num) (fun x hx => by simp at hx) (by omega)
        rcases hres : bisect_loop oracle 0 ((n : Int) - 1) 0 (-1) none [] with ⟨ls, f, st⟩
        rw [hres] at hadj
        cases f with
        | none =>
          dsimp only
          intro h
          simp at h
        | some y =>
          dsimp only
          intro _ h2 h3
          have hy : ls = y - 1 := hadj y rfl
          by_cases hls0 : (0 : Int) ≤ ls
          · rw [if_pos hls0] at h2
            have hm := Option.some_inj.mp h2
            have hfi := Option.some_inj.mp h3
            omega
          · rw [if_neg hls0] at h2
            exact absurd h2 (by simp)
  · rw [LineBinarySearcher_search]
    by_cases hn0 : n = 0
    · rw [if_pos hn0]
      intro h
      simp at h
    · rw [if_neg hn0]
      have hadj := bisect_loop_adjacent oracle 1 (n : Int) 0 0 none []
        (by norm_num) (fun x hx => by simp at hx) (by omega)
      rcases hres : bisect_loop oracle 1 (n : Int) 0 0 none [] with ⟨ls, f, st⟩
      rw [hres] at hadj
      cases f with
      | none =>
        dsimp only
        intro h
        simp at h
      | some y =>
        dsimp only
        intro _ h2 h3
        have hy : ls = y - 1 := hadj y rfl
        by_cases hls0 : (0 : Int) < ls
        · rw [if_pos hls0] at h2
          have hm := Option.some_inj.mp h2
          have hfi := Option.some_inj.mp h3
          omega
        · rw [if_neg hls0] at h2
          exact absurd h2 (by simp)

theorem claim_C10_witness :
    (BinarySearcher_search 2 false (fun m => decide (m = 0))).found_error = true ∧
    (BinarySearcher_search 2 false (fun m => decide (m = 0))).last_successful_block_index =
      some 0 ∧
    (BinarySearcher_search 2 false (fun m => decide (m = 0))).failing_block_index = some 1 ∧
    (1 : Int) = 0 + 1 := by
  have hrun : BinarySearcher_search 2 false (fun m => decide (m = 0)) =
      { found_error := true, failing_block_index := some 1,
        last_successful_block_index := some 0,
        steps := [⟨1, 0, true⟩, ⟨2, 1, false⟩], probes := 4 } := by
    rw [BinarySearcher_search]
    norm_num
    rw [bisect_loop]
    norm_num
    rw [bisect_loop]
    norm_num
    rw [bisect_loop]
    norm_num
  exact ⟨by rw [hrun], by rw [hrun], by rw [hrun],
    (claim_C10_adjacent_indices 2 false (fun m => decide (m = 0)) 0 1).1
      (by rw [hrun]) (by rw [hrun]) (by rw [hrun])⟩

/-- C4 (amended): the no-error short-circuit belongs to the
block-granularity searcher only: when the full-document validation
succeeds it returns no-error after exactly that one probe.  The
line-granularity searcher performs no full-document pre-check; it
bisects regardless, and only if every line probe succeeds does it
return no-error, after up to `⌊log2 n⌋ + 1` probes. -/
theorem claim_C4_short_circuit :
    (∀ (n : Nat) (oracle : Int → Bool),
      (BinarySearcher_search n true oracle).found_error = false ∧
      (BinarySearcher_search n true oracle).probes ≤ 1) ∧
    (∀ (n : Nat) (oracle : Int → Bool), (∀ m, oracle m = true) →
      (LineBinarySearcher_search n oracle).found_error = false ∧
      (LineBinarySearcher_search n oracle).probes ≤ Nat.log2 n + 1) := by
  constructor
  · intro n oracle
    by_cases hn0 : n = 0
    · rw [BinarySearcher_search, if_pos hn0]
      exact ⟨rfl, by norm_num⟩
    · rw [BinarySearcher_search, if_neg hn0, if_pos rfl]
      exact ⟨rfl, le_refl 1⟩
  · intro n oracle hall
    by_cases hn0 : n = 0
    · rw [LineBinarySearcher_search, if_pos hn0]
      exact ⟨rfl, by norm_num⟩
    · rw [LineBinarySearcher_search, if_neg hn0]
      have hap := bisect_loop_all_pass oracle hall 1 (n : Int) 0 0 none []
      have hsteps := bisect_loop_steps oracle 1 (n : Int) 0 0 none []
      rcases hres : bisect_loop oracle 1 (n : Int) 0 0 none [] with ⟨ls, f, st⟩
      rw [hres] at hap hsteps
      have hf : f = none := hap
      subst hf
      dsimp only
      refine ⟨rfl, ?_⟩
      have hcond : (1 : Int) ≤ (n : Int) := by omega
      rw [if_pos hcond] at hsteps
      have harg : ((n : Int) + 1 - 1).toNat = n := by omega
      rw [harg] at hsteps
      simpa using hsteps

/-- C4 counterexample: a 2-line document whose full evaluation succeeds
(the probe at cutoff 2, i.e. the whole document, passes) but whose
cutoff-1 probe fails: the line searcher — having no full-document
pre-check — probes twice and returns found_error = true, refuting both
the "at most one oracle probe" and the "found_error=false" parts of the
claim for line-granularity search. -/
theorem claim_C4_counterexample :
    ((fun m => decide (m = 2) : Int → Bool) 2 = true) ∧
    (LineBinarySearcher_search 2 (fun m => decide (m = 2))).found_error = true ∧
    (LineBinarySearcher_search 2 (fun m => decide (m = 2))).probes = 2 := by
  have hrun : LineBinarySearcher_search 2 (fun m => decide (m = 2)) =
      { found_error := true, failing_line := some 1,
        last_successful_line := none,
        steps := [⟨1, 1, false⟩], probes := 2 } := by
    rw [LineBinarySearcher_search]
    norm_num
    rw [bisect_loop]
    norm_num
    rw [bisect_loop]
    norm_num
  exact ⟨by decide, by rw [hrun], by rw [hrun]⟩

/-- C4 witness: the line-granularity conjunct evaluated on a 1-line
document whose probes all succeed. -/
theorem claim_C4_witness :
    (∀ m : Int, (fun _ => true : Int → Bool) m = true) ∧
    (LineBinarySearcher_search 1 (fun _ => true)).found_error = false ∧
    (LineBinarySearcher_search 1 (fun _ => true)).probes ≤ Nat.log2 1 + 1 :=
  ⟨fun _ => rfl,
    (claim_C4_short_circuit.2 1 (fun _ => true) (fun _ => rfl)).1,
    (claim_C4_short_circuit.2 1 (fun _ => true) (fun _ => rfl)).2⟩

/-- C1: with a monotone oracle of threshold `k` (a probe at cutoff `m`
succeeds exactly when `m < k`) on a non-empty document whose full
evaluation fails, block bisection returns found_error with failing
index exactly `k`, last-known-good `k - 1` (none when `k = 0`), and at
most `⌊log2 n⌋ + 1` recorded probe steps; line bisection (1-based
cutoffs) returns failing line exactly `k`, last successful line `k - 1`
(none when `k = 1`), with the same step bound. -/
theorem claim_C1_bisection_convergence (n k : Nat) (oracle : Int → Bool) :
    (0 < n → (k : Int) < (n : Int) → (∀ m : Int, oracle m = true ↔ m < (k : Int)) →
      (BinarySearcher_search n false oracle).found_error = true ∧
      (BinarySearcher_search n false oracle).failing_block_index = some (k : Int) ∧
      (BinarySearcher_search n false oracle).last_successful_block_index =
        (if k = 0 then none else some ((k : Int) - 1)) ∧
      (BinarySearcher_search n false oracle).steps.length ≤ Nat.log2 n + 1) ∧
    (0 < n → 1 ≤ k → k ≤ n → (∀ m : Int, oracle m = true ↔ m < (k : Int)) →
      (LineBinarySearcher_search n oracle).found_error = true ∧
      (LineBinarySearcher_search n oracle).failing_line = some (k : Int) ∧
      (LineBinarySearcher_search n oracle).last_successful_line =
        (if k = 1 then none else some ((k : Int) - 1)) ∧
      (LineBinarySearcher_search n oracle).steps.length ≤ Nat.log2 n + 1) := by
  constructor
  · intro hn hk hor
    have hn0 : ¬(n = 0) := by omega
    have hmono := bisect_loop_mono oracle (k : Int) hor 0 ((n : Int) - 1) 0 (-1) none []
      (by omega) (by omega) (fun _ => by omega) (fun x hx => by simp at hx) (by norm_num)
    have hsteps := bisect_loop_steps oracle 0 ((n : Int) - 1) 0 (-1) none []
    rcases hres : bisect_loop oracle 0 ((n : Int) - 1) 0 (-1) none [] with ⟨ls, f, st⟩
    rw [hres] at hmono hsteps
    obtain ⟨hf, hls⟩ := hmono
    have hf' : f = some (k : Int) := hf
    have hls' : ls = (k : Int) - 1 := hls
    subst hf'
    subst hls'
    rw [BinarySearcher_search, if_neg hn0, if_neg (by simp : ¬(false = true)), hres]
    dsimp only
    refine ⟨rfl, rfl, ?_, ?_⟩
    · by_cases hk0 : k = 0
      · subst hk0
        rw [if_pos rfl, if_neg (by norm_num)]
      · rw [if_neg hk0, if_pos (by omega : (0 : Int) ≤ (k : Int) - 1)]
    · have hcond : (0 : Int) ≤ (n : Int) - 1 := by omega
      rw [if_pos hcond] at hsteps
      have harg : ((n : Int) - 1 + 1 - 0).toNat = n := by omega
      rw [harg] at hsteps
      simpa using hsteps
  · intro hn hk1 hkn hor
    have hn0 : ¬(n = 0) := by omega
    have hmono := bisect_loop_mono oracle (k : Int) hor 1 (n : Int) 0 0 none []
      (by omega) (by omega) (fun _ => by omega) (fun x hx => by simp at hx) (by norm_num)
    have hsteps := bisect_loop_steps oracle 1 (n : Int) 0 0 none []
    rcases hres : bisect_loop oracle 1 (n : Int) 0 0 none [] with ⟨ls, f, st⟩
    rw [hres] at hmono hsteps
    obtain ⟨hf, hls⟩ := hmono
    have hf' : f = some (k : Int) := hf
    have hls' : ls = (k : Int) - 1 := hls
    subst hf'
    subst hls'
    rw [LineBinarySearcher_search, if_neg hn0, hres]
    dsimp only
    refine ⟨rfl, rfl, ?_, ?_⟩
    · by_cases hk0 : k = 1
      · subst hk0
        rw [if_pos rfl, if_neg (by norm_num)]
      · rw [if_neg hk0, if_pos (by omega : (0 : Int) < (k : Int) - 1)]
    · have hcond : (1 : Int) ≤ (n : Int) := by omega
      rw [if_pos hcond] at hsteps
      have harg : ((n : Int) + 1 - 1).toNat = n := by omega
      rw [harg] at hsteps
      simpa using hsteps

/-- C1 witness: a 3-unit (3-line) document failing from index 1 onward. -/
theorem claim_C1_witness :
    ((BinarySearcher_search 3 false (fun m => decide (m < 1))).found_error = true ∧
      (BinarySearcher_search 3 false (fun m => decide (m < 1))).failing_block_index =
        some ((1 : Nat) : Int) ∧
      (BinarySearcher_search 3 false (fun m => decide (m < 1))).last_successful_block_index =
        (if (1 : Nat) = 0 then none else some (((1 : Nat) : Int) - 1)) ∧
      (BinarySearcher_search 3 false (fun m => decide (m < 1))).steps.length ≤
        Nat.log2 3 + 1) ∧
    ((LineBinarySearcher_search 3 (fun m => decide (m < 2))).found_error = true ∧
      (LineBinarySearcher_search 3 (fun m => decide (m < 2))).failing_line =
        some ((2 : Nat) : Int) ∧
      (LineBinarySearcher_search 3 (fun m => decide (m < 2))).last_successful_line =
        (if (2 : Nat) = 1 then none else some (((2 : Nat) : Int) - 1)) ∧
      (LineBinarySearcher_search 3 (fun m => decide (m < 2))).steps.length ≤
        Nat.log2 3 + 1) :=
  ⟨(claim_C1_bisection_convergence 3 1 (fun m => decide (m < 1))).1 (by norm_num)
      (by norm_num) (fun m => by simp),
    (claim_C1_bisection_convergence 3 2 (fun m => decide (m < 2))).2 (by norm_num)
      (by norm_num) (by norm_num) (fun m => by simp)⟩

/-- C8: the linear searchers iterate cutoffs forward from the start,
record one step per probe, stop at the first failing cutoff with that
cutoff as the failing index (having recorded a step for every cutoff up
to it), and when every probe up to the end succeeds report no-error
with `len(blocks) - 1` (block granularity) or `total_lines` (line
granularity) as the last-successful index. -/
theorem claim_C8_linear_scan (n start : Nat) (oracle : Int → Bool) :
    (0 < n → (∀ j : Int, (start : Int) ≤ j → j ≤ (n : Int) - 1 → oracle j = true) →
      (StepByStepSearcher_search n start oracle).found_error = false ∧
      (StepByStepSearcher_search n start oracle).last_successful_block_index =
        some ((n : Int) - 1) ∧
      (StepByStepSearcher_search n start oracle).steps.length =
        ((n : Int) - (start : Int)).toNat) ∧
    (∀ fI : Int, 0 < n → (start : Int) ≤ fI → fI ≤ (n : Int) - 1 → oracle fI = false →
      (∀ j : Int, (start : Int) ≤ j → j < fI → oracle j = true) →
      (StepByStepSearcher_search n start oracle).found_error = true ∧
      (StepByStepSearcher_search n start oracle).failing_block_index = some fI ∧
      (StepByStepSearcher_search n start oracle).steps.length =
        (fI + 1 - (start : Int)).toNat) ∧
    (0 < n → (∀ j : Int, (start : Int) ≤ j → j ≤ (n : Int) → oracle j = true) →
      (LineStepByStepSearcher_search n start oracle).found_error = false ∧
      (LineStepByStepSearcher_search n start oracle).last_successful_line = some (n : Int) ∧
      (LineStepByStepSearcher_search n start oracle).steps.length =
        ((n : Int) + 1 - (start : Int)).toNat) ∧
    (∀ fI : Int, 0 < n → (start : Int) ≤ fI → fI ≤ (n : Int) → oracle fI = false →
      (∀ j : Int, (start : Int) ≤ j → j < fI → oracle j = true) →
      (LineStepByStepSearcher_search n start oracle).found_error = true ∧
      (LineStepByStepSearcher_search n start oracle).failing_line = some fI ∧
      (LineStepByStepSearcher_search n start oracle).steps.length =
        (fI + 1 - (start : Int)).toNat) := by
  refine ⟨?_, ?_, ?_, ?_⟩
  · intro hn hall
    have hn0 : ¬(n = 0) := by omega
    have hap := linear_loop_all_pass oracle ((n : Int) - 1) (start : Int) (start : Int)
      (-1) [] hall
    rcases hres : linear_loop oracle ((n : Int) - 1) (start : Int) (start : Int) (-1) []
      with ⟨fo, ls, st⟩
    rw [hres] at hap
    obtain ⟨hfo, hlen⟩ := hap
    have hfo' : fo = none := hfo
    subst hfo'
    rw [StepByStepSearcher_search, if_neg hn0, hres]
    dsimp only
    refine ⟨rfl, rfl, ?_⟩
    have hlen' : st.length = ([] : List ProbeStep).length + ((n : Int) - 1 + 1 - (start : Int)).toNat :=
      hlen
    simp only [List.length_nil] at hlen'
    omega
  · intro fI hn h1 h2 h3 h4
    have hn0 : ¬(n = 0) := by omega
    have hff := linear_loop_first_fail oracle ((n : Int) - 1) (start : Int) fI h3 h2
      (start : Int) (-1) [] h1 h4
    rcases hres : linear_loop oracle ((n : Int) - 1) (start : Int) (start : Int) (-1) []
      with ⟨fo, ls, st⟩
    rw [hres] at hff
    obtain ⟨hfo, hlen⟩ := hff
    have hfo' : fo = some fI := hfo
    subst hfo'
    rw [StepByStepSearcher_search, if_neg hn0, hres]
    dsimp only
    refine ⟨rfl, rfl, ?_⟩
    have hlen' : st.length = ([] : List ProbeStep).length + (fI + 1 - (start : Int)).toNat :=
      hlen
    simpa using hlen'
  · intro hn hall
    have hn0 : ¬(n = 0) := by omega
    have hap := linear_loop_all_pass oracle (n : Int) (start : Int) (start : Int) 0 [] hall
    rcases hres : linear_loop oracle (n : Int) (start : Int) (start : Int) 0 []
      with ⟨fo, ls, st⟩
    rw [hres] at hap
    obtain ⟨hfo, hlen⟩ := hap
    have hfo' : fo = none := hfo
    subst hfo'
    rw [LineStepByStepSearcher_search, if_neg hn0, hres]
    dsimp only
    refine ⟨rfl, rfl, ?_⟩
    have hlen' : st.length = ([] : List ProbeStep).length + ((n : Int) + 1 - (start : Int)).toNat :=
      hlen
    simpa using hlen'
  · intro fI hn h1 h2 h3 h4
    have hn0 : ¬(n = 0) := by omega
    have hff := linear_loop_first_fail oracle (n : Int) (start : Int) fI h3 h2
      (start : Int) 0 [] h1 h4
    rcases hres : linear_loop oracle (n : Int) (start : Int) (start : Int) 0 []
      with ⟨fo, ls, st⟩
    rw [hres] at hff
    obtain ⟨hfo, hlen⟩ := hff
    have hfo' : fo = some fI := hfo
    subst hfo'
    rw [LineStepByStepSearcher_search, if_neg hn0, hres]
    dsimp only
    refine ⟨rfl, rfl, ?_⟩
    have hlen' : st.length = ([] : List ProbeStep).length + (fI + 1 - (start : Int)).toNat :=
      hlen
    simpa using hlen'

/-- C8 witness: each conjunct evaluated on a 2-unit (resp. 2-line)
document — all probes passing for the no-error conjuncts, first failure
at index 1 for the failing conjuncts. -/
theorem claim_C8_witness :
    ((StepByStepSearcher_search 2 0 (fun _ => true)).found_error = false ∧
      (StepByStepSearcher_search 2 0 (fun _ => true)).last_successful_block_index =
        some (((2 : Nat) : Int) - 1) ∧
      (StepByStepSearcher_search 2 0 (fun _ => true)).steps.length =
        (((2 : Nat) : Int) - ((0 : Nat) : Int)).toNat) ∧
    ((StepByStepSearcher_search 2 0 (fun m => decide (m < 1))).found_error = true ∧
      (StepByStepSearcher_search 2 0 (fun m => decide (m < 1))).failing_block_index =
        some 1 ∧
      (StepByStepSearcher_search 2 0 (fun m => decide (m < 1))).steps.length =
        ((1 : Int) + 1 - ((0 : Nat) : Int)).toNat) ∧
    ((LineStepByStepSearcher_search 2 1 (fun _ => true)).found_error = false ∧
      (LineStepByStepSearcher_search 2 1 (fun _ => true)).last_successful_line =
        some ((2 : Nat) : Int) ∧
      (LineStepByStepSearcher_search 2 1 (fun _ => true)).steps.length =
        (((2 : Nat) : Int) + 1 - ((1 : Nat) : Int)).toNat) ∧
    ((LineStepByStepSearcher_search 2 1 (fun m => decide (m < 2))).found_error = true ∧
      (LineStepByStepSearcher_search 2 1 (fun m => decide (m < 2))).failing_line = some 2 ∧
      (LineStepByStepSearcher_search 2 1 (fun m => decide (m < 2))).steps.length =
        ((2 : Int) + 1 - ((1 : Nat) : Int)).toNat) :=
  ⟨(claim_C8_linear_scan 2 0 (fun _ => true)).1 (by norm_num) (fun j _ _ => rfl),
    (claim_C8_linear_scan 2 0 (fun m => decide (m < 1))).2.1 1 (by norm_num) (by norm_num)
      (by norm_num) (by simp) (fun j hj1 hj2 => by simpa using hj2),
    (claim_C8_linear_scan 2 1 (fun _ => true)).2.2.1 (by norm_num) (fun j _ _ => rfl),
    (claim_C8_linear_scan 2 1 (fun m => decide (m < 2))).2.2.2 2 (by norm_num) (by norm_num)
      (by norm_num) (by simp) (fun j hj1 hj2 => by simpa using hj2)⟩
